import Mathlib

/-!
Verification development for the Plastermate LiDAR wall-scan pipeline
(`PlastermateUi.py`, function `process_lidar_data_and_generate_heatmap`).

The pipeline is shallowly embedded here:
* scan text is a `List Char`; lines, stripping and splitting mirror the
  Python string operations used by the source;
* Python floats are modelled exactly by `PyFloat`: a rational number for
  finite values plus the distinguished values `inf`, `-inf` and `nan`
  (Python's `float()` accepts these spellings), with Python's comparison
  and subtraction semantics on them;
* the trigonometric projection, histogram binning, zero-fill and Gaussian
  smoothing stages are embedded over `ℝ` with exact arithmetic.
-/

set_option maxRecDepth 100000

deriving instance DecidableEq for Except

namespace Plastermate

/-- Python float values as produced by `float(...)`: exact rationals for
finite values, plus `inf`, `-inf` and `nan`. -/
inductive PyFloat where
  | fin (q : ℚ)
  | inf
  | ninf
  | nan
deriving DecidableEq, Repr

namespace PyFloat

/-- Python's `<` on floats: any comparison involving `nan` is `False`. -/
def plt : PyFloat → PyFloat → Bool
  | .nan, _ => false
  | _, .nan => false
  | .fin a, .fin b => decide (a < b)
  | .fin _, .inf => true
  | .fin _, .ninf => false
  | .inf, _ => false
  | .ninf, .ninf => false
  | .ninf, _ => true

/-- Python's `-` on floats: `inf - inf = nan`, `nan` absorbs. -/
def psub : PyFloat → PyFloat → PyFloat
  | .fin a, .fin b => .fin (a - b)
  | .nan, _ => .nan
  | _, .nan => .nan
  | .inf, .inf => .nan
  | .inf, _ => .inf
  | .ninf, .ninf => .nan
  | .ninf, _ => .ninf
  | .fin _, .inf => .ninf
  | .fin _, .ninf => .inf

/-- Finiteness test. -/
def isFinite : PyFloat → Bool
  | .fin _ => true
  | _ => false

/-- The rational value of a finite Python float (junk `0` on non-finite
values, which are never fed to it in the statements below). -/
def toQ : PyFloat → ℚ
  | .fin q => q
  | _ => 0

end PyFloat

/-! ### Python string primitives used by the source -/

/-- Characters stripped by Python's `str.strip()` (ASCII whitespace). -/
def isPySpace (c : Char) : Bool :=
  c == ' ' || c == '\t' || c == '\n' || c == '\r' || c == '\x0b' || c == '\x0c'

/-- Python `str.strip()`. -/
def pyStrip (l : List Char) : List Char :=
  ((l.dropWhile isPySpace).reverse.dropWhile isPySpace).reverse

/-- Splitting on a separator character, keeping empty pieces
(Python `str.split(sep)`). -/
def splitSepAux (sep : Char) : List Char → List Char → List (List Char)
  | [], acc => [acc.reverse]
  | c :: rest, acc =>
    if c == sep then acc.reverse :: splitSepAux sep rest []
    else splitSepAux sep rest (c :: acc)

/-- Python `str.split(sep)` for a single-character separator. -/
def splitSep (sep : Char) (l : List Char) : List (List Char) :=
  splitSepAux sep l []

/-- Whitespace splitting, dropping empty pieces (Python `str.split()`). -/
def wsSplitAux : List Char → List Char → List (List Char)
  | [], acc => if acc.isEmpty then [] else [acc.reverse]
  | c :: rest, acc =>
    if isPySpace c then
      if acc.isEmpty then wsSplitAux rest []
      else acc.reverse :: wsSplitAux rest []
    else wsSplitAux rest (c :: acc)

/-- Python `str.split()` with no arguments. -/
def wsSplit (l : List Char) : List (List Char) :=
  wsSplitAux l []

/-- Python `str.startswith('Level')`. -/
def startsLevel (l : List Char) : Bool :=
  l.take 5 == ['L', 'e', 'v', 'e', 'l']

/-- Python `str.isdigit()` restricted to ASCII: nonempty and all decimal
digits. -/
def isdigitStr (l : List Char) : Bool :=
  !l.isEmpty && l.all Char.isDigit

/-- Value of a string of decimal digits (Python `int(...)` on an
`isdigit` string). -/
def digitsToNat (l : List Char) : ℕ :=
  l.foldl (fun n c => 10 * n + (c.toNat - 48)) 0

/-! ### Python `float()` on a token -/

/-- Split a token at the first `e`/`E` (mantissa, optional exponent part). -/
def breakAtExp : List Char → List Char × Option (List Char)
  | [] => ([], none)
  | c :: r =>
    if c == 'e' || c == 'E' then ([], some r)
    else
      let p := breakAtExp r
      (c :: p.1, p.2)

/-- Split a token at the first `.` (integer part, optional fraction part). -/
def breakAtDot : List Char → List Char × Option (List Char)
  | [] => ([], none)
  | c :: r =>
    if c == '.' then ([], some r)
    else
      let p := breakAtDot r
      (c :: p.1, p.2)

/-- Parse an exponent (optionally signed digit string) to an integer. -/
def parseExpInt : List Char → Option ℤ
  | '+' :: r => if isdigitStr r then some (digitsToNat r : ℤ) else none
  | '-' :: r => if isdigitStr r then some (-(digitsToNat r : ℤ)) else none
  | r => if isdigitStr r then some (digitsToNat r : ℤ) else none

/-- Parse an unsigned decimal mantissa `digits[.digits]` (at least one
digit overall) to an exact rational. -/
def parseMant (l : List Char) : Option ℚ :=
  let p := breakAtDot l
  match p.2 with
  | none => if isdigitStr p.1 then some (digitsToNat p.1 : ℚ) else none
  | some fp =>
    if p.1.all Char.isDigit && fp.all Char.isDigit && !(p.1.isEmpty && fp.isEmpty) then
      some ((digitsToNat (p.1 ++ fp) : ℚ) / 10 ^ fp.length)
    else none

/-- Parse an unsigned decimal numeral with optional exponent. -/
def parseDec (l : List Char) : Option ℚ :=
  let p := breakAtExp l
  match p.2 with
  | none => parseMant p.1
  | some ex =>
    match parseMant p.1, parseExpInt ex with
    | some q, some z => some (q * (10 : ℚ) ^ z)
    | _, _ => none

/-- Python `float(token)`: strips whitespace, handles an optional sign,
the case-insensitive spellings `inf`/`infinity`/`nan`, and decimal
numerals with optional fraction and exponent. Values are kept exact as
rationals (the embedding does not round to binary64, and digit-group
underscores are not modelled). -/
def parseFloat (l : List Char) : Option PyFloat :=
  match pyStrip l with
  | [] => none
  | s =>
    let sb : Bool × List Char :=
      match s with
      | '+' :: r => (false, r)
      | '-' :: r => (true, r)
      | r => (false, r)
    let low := sb.2.map Char.toLower
    if low == ['i', 'n', 'f'] || low == ['i', 'n', 'f', 'i', 'n', 'i', 't', 'y'] then
      some (if sb.1 then .ninf else .inf)
    else if low == ['n', 'a', 'n'] then some .nan
    else (parseDec sb.2).map fun q => .fin (if sb.1 then -q else q)

/-! ### The line scanner (source lines 35–70) -/

/-- One validated reading: the level it was declared under and the raw
azimuth/distance values appended by the scanner. -/
structure Reading where
  level : ℕ
  azimuth : PyFloat
  distance : PyFloat
deriving DecidableEq, Repr

/-- Fatal error outcomes of the pipeline, each parse error carrying the
offending (stripped) line exactly as interpolated into the source's
`st.error` message. -/
inductive Err where
  | badLevel (line : List Char)
  | badDataCount (line : List Char)
  | badDataNum (line : List Char)
  | noData
  | noLevels
deriving DecidableEq, Repr

/-- The scanning loop of the source (lines 37–65): strips each line,
skips blanks, validates `Level <digits>` declarations, validates
`azimuth,distance` data lines under the current level, and skips data
lines seen before any level declaration (a warning in the source). -/
def scanRecords : Option ℕ → List (List Char) → Except Err (List Reading)
  | _, [] => .ok []
  | lvl?, ln :: rest =>
    let l := pyStrip ln
    if l.isEmpty then scanRecords lvl? rest
    else if startsLevel l then
      let parts := wsSplit l
      if parts.length ≠ 2 ∨ ¬ isdigitStr (parts.getD 1 []) then .error (.badLevel l)
      else scanRecords (some (digitsToNat (parts.getD 1 []))) rest
    else
      match lvl? with
      | some lvl =>
        let parts := splitSep ',' l
        if parts.length ≠ 2 then .error (.badDataCount l)
        else
          match parseFloat (parts.getD 0 []), parseFloat (parts.getD 1 []) with
          | some a, some d => (scanRecords lvl? rest).map fun rs => ⟨lvl, a, d⟩ :: rs
          | _, _ => .error (.badDataNum l)
      | none => scanRecords none rest

/-- Iterating over the lines of the in-memory file content. -/
def pyLines (s : List Char) : List (List Char) :=
  splitSep '\n' s

/-- Full scan of the raw file content. -/
def scanInput (s : List Char) : Except Err (List Reading) :=
  scanRecords none (pyLines s)

/-! ### Per-level baselines and deviations (source lines 88–110) -/

/-- Distances of the readings at one level
(`[d for l, d in zip(levels, dists) if l == lvl_val]`). -/
def levelDists (rs : List Reading) (lvl : ℕ) : List PyFloat :=
  (rs.filter fun r => r.level == lvl).map Reading.distance

/-- Python `min` over a nonempty collection `m :: l`: keep the current
minimum and replace it whenever a later element compares `<` to it. -/
def pyminFold (m : PyFloat) (l : List PyFloat) : PyFloat :=
  l.foldl (fun m x => if PyFloat.plt x m then x else m) m

/-- The `base_per_level` dictionary (source lines 94–101): defined for
exactly the levels appearing in the parsed readings; the `[]` branch is
the source's degenerate-level warning branch (lines 97–99). -/
def basePerLevel (rs : List Reading) (lvl : ℕ) : Option PyFloat :=
  if lvl ∈ rs.map Reading.level then
    match levelDists rs lvl with
    | [] => some (.fin 0)
    | h :: t => some (pyminFold h t)
  else none

/-- Levels for which the source would emit the "No distance measurements
found for Level ..., using baseline 0" warning (lines 97–99). -/
def degWarnings (rs : List Reading) : List ℕ :=
  ((rs.map Reading.level).dedup).filter fun lvl => (levelDists rs lvl).isEmpty

/-- The deviation list `D` (source lines 103–110); the `none` branch is
the source's robustness branch appending deviation `0`. -/
def devs (rs : List Reading) : List PyFloat :=
  rs.map fun r =>
    match basePerLevel rs r.level with
    | some b => PyFloat.psub r.distance b
    | none => .fin 0

/-! ### Polar-to-Cartesian projection (source lines 72–86) -/

/-- Mechanical tilt increment per level, hardcoded `1.8` in the source
(line 76). -/
noncomputable def ELEVATION_STEP_DEGREES : ℝ := 1.8

/-- `math.radians`. -/
noncomputable def deg2rad (d : ℝ) : ℝ := d * Real.pi / 180

/-- `elev_deg = (lvl - 1) * 1.8` with Python integer semantics (the
subtraction may go negative, so it is carried out in `ℝ`, not `ℕ`). -/
noncomputable def elevDeg (lvl : ℕ) : ℝ := ((lvl : ℝ) - 1) * ELEVATION_STEP_DEGREES

/-- Horizontal coordinate in meters:
`r * cos(theta_e) * sin(theta_a) / 1000` (source lines 81, 85). -/
noncomputable def x_m (lvl : ℕ) (azi dist : ℝ) : ℝ :=
  dist * Real.cos (deg2rad (elevDeg lvl)) * Real.sin (deg2rad azi) / 1000

/-- Vertical coordinate in meters: `r * sin(theta_e) / 1000`
(source lines 82, 86). -/
noncomputable def z_m (lvl : ℕ) (dist : ℝ) : ℝ :=
  dist * Real.sin (deg2rad (elevDeg lvl)) / 1000

/-- Real value of a parsed float fed to the arithmetic stages. `ℝ` has
no infinities or NaN, so non-finite parsed values are mapped to `0`;
every claim about the real-valued stages is stated for finite data. -/
noncomputable def toR : PyFloat → ℝ
  | .fin q => (q : ℝ)
  | _ => 0

/-- Projected wall-plane point of one reading. -/
noncomputable def projPoint (r : Reading) : ℝ × ℝ :=
  (x_m r.level (toR r.azimuth) (toR r.distance), z_m r.level (toR r.distance))

/-! ### Histogram binning, zero-fill and mask (source lines 113–127)

The grid is `np.histogram2d(X, Z, bins=[xb, zb])` with
`xb = np.linspace(-2.2, 2.2, 201)` and `zb = np.linspace(0, 2.2, 201)`:
200 uniform bins per axis, right-open except the last (closed) bin, and
points falling outside `[first edge, last edge]` on either axis are
dropped. For uniform edges the bin of an in-range value `x` is
`min ⌊(x - lo) / width⌋ (n - 1)`. -/

/-- Bin index of a horizontal coordinate, `none` when out of range. -/
noncomputable def xbin (x : ℝ) : Option (Fin 200) :=
  if -2.2 ≤ x ∧ x ≤ 2.2 then
    some ⟨min (⌊(x + 2.2) * 200 / 4.4⌋).toNat 199, Nat.lt_succ_of_le (Nat.min_le_right _ _)⟩
  else none

/-- Bin index of a vertical coordinate, `none` when out of range. -/
noncomputable def zbin (z : ℝ) : Option (Fin 200) :=
  if 0 ≤ z ∧ z ≤ 2.2 then
    some ⟨min (⌊z * 200 / 2.2⌋).toNat 199, Nat.lt_succ_of_le (Nat.min_le_right _ _)⟩
  else none

/-- The cell receiving a projected point, `none` when the point is
dropped by the histogram. -/
noncomputable def bin2d (p : ℝ × ℝ) : Option (Fin 200 × Fin 200) :=
  match xbin p.1, zbin p.2 with
  | some i, some j => some (i, j)
  | _, _ => none

/-- Membership in the configured physical extent of the grid. -/
def inExtent (p : ℝ × ℝ) : Prop :=
  (-2.2 ≤ p.1 ∧ p.1 ≤ 2.2) ∧ (0 ≤ p.2 ∧ p.2 ≤ 2.2)

/-- `H_count` at one cell: the number of points binned there. -/
noncomputable def countCell (ps : List (ℝ × ℝ)) (c : Fin 200 × Fin 200) : ℕ :=
  (ps.map bin2d).count (some c)

/-- `H_sum` at one cell: the sum of the deviation weights of the points
binned there (`np.histogram2d(..., weights=D)`). -/
noncomputable def cellSum (pds : List ((ℝ × ℝ) × ℝ)) (c : Fin 200 × Fin 200) : ℝ :=
  (pds.map fun q => if bin2d q.1 = some c then q.2 else 0).sum

/-- Per-cell count for weighted points. -/
noncomputable def cellCount (pds : List ((ℝ × ℝ) × ℝ)) (c : Fin 200 × Fin 200) : ℕ :=
  countCell (pds.map Prod.fst) c

/-- The empty-cell mask: cells where `H_count` is zero (these are `NaN`
in `H_dev` and zero-filled by `np.nan_to_num`). -/
def emptyCell (pds : List ((ℝ × ℝ) × ℝ)) (c : Fin 200 × Fin 200) : Prop :=
  cellCount pds c = 0

/-- `H_filled` at one cell: mean deviation when the cell has points,
zero-filled otherwise (source lines 124–127). -/
noncomputable def cellValue (pds : List ((ℝ × ℝ) × ℝ)) (c : Fin 200 × Fin 200) : ℝ :=
  if cellCount pds c = 0 then 0 else cellSum pds c / (cellCount pds c : ℝ)

/-! ### Gaussian smoothing (source line 130)

`scipy.ndimage.gaussian_filter(H_filled, sigma=(3.0, 3.0))`: a separable
correlation with the truncated normalized Gaussian kernel of standard
deviation 3 and radius `int(4.0 * 3.0 + 0.5) = 12`, applied along each
axis in turn, with the default `reflect` boundary mode
`(d c b a | a b c d | d c b a)`. -/

/-- Kernel truncation radius `int(truncate * sigma + 0.5)`. -/
def gaussRadius : ℕ := 12

/-- Unnormalized Gaussian weight `exp(-0.5 * k² / sigma²)`. -/
noncomputable def gaussWeight (k : ℤ) : ℝ :=
  Real.exp (-(k : ℝ) ^ 2 / (2 * 3 ^ 2))

/-- Normalized truncated Gaussian kernel. -/
noncomputable def gaussKern (k : ℤ) : ℝ :=
  gaussWeight k / ∑ j ∈ Finset.Icc (-(gaussRadius : ℤ)) (gaussRadius : ℤ), gaussWeight j

/-- Index mapping of the `reflect` boundary mode on a 200-long axis. -/
def reflectIdx (i : ℤ) : Fin 200 :=
  if h : (i % 400).toNat < 200 then ⟨(i % 400).toNat, h⟩
  else ⟨399 - (i % 400).toNat, by omega⟩

/-- One smoothing pass along the first axis. -/
noncomputable def smoothRows (g : Fin 200 → Fin 200 → ℝ) : Fin 200 → Fin 200 → ℝ :=
  fun i j =>
    ∑ k ∈ Finset.Icc (-(gaussRadius : ℤ)) (gaussRadius : ℤ),
      gaussKern k * g (reflectIdx ((i : ℤ) + k)) j

/-- One smoothing pass along the second axis. -/
noncomputable def smoothCols (g : Fin 200 → Fin 200 → ℝ) : Fin 200 → Fin 200 → ℝ :=
  fun i j =>
    ∑ k ∈ Finset.Icc (-(gaussRadius : ℤ)) (gaussRadius : ℤ),
      gaussKern k * g i (reflectIdx ((j : ℤ) + k))

/-- The full 2-D Gaussian smoothing pass. -/
noncomputable def gaussSmooth (g : Fin 200 → Fin 200 → ℝ) : Fin 200 → Fin 200 → ℝ :=
  smoothCols (smoothRows g)

/-! ### The full pipeline -/

/-- Projected points paired with their deviation weights, mirroring
`zip(levels, azimuths, dists)` with `D` (the deviation of the i-th
reading is the i-th entry of `devs`). -/
noncomputable def projAll (rs : List Reading) : List ((ℝ × ℝ) × ℝ) :=
  (rs.zip (devs rs)).map fun p => (projPoint p.1, toR p.2)

/-- The smoothed output grid `H_smooth` for a list of readings. -/
noncomputable def pipelineGrid (rs : List Reading) : Fin 200 → Fin 200 → ℝ :=
  gaussSmooth fun i j => cellValue (projAll rs) (i, j)

/-- The whole of `process_lidar_data_and_generate_heatmap` up to the
figure assembly: scan the text, abort on any fatal error (the source
returns `None` after `st.error`), reject an empty reading list
(lines 68–70) and an empty level set (lines 89–92), and otherwise
produce the smoothed deviation grid. -/
noncomputable def process (s : List Char) : Except Err (Fin 200 → Fin 200 → ℝ) :=
  match scanInput s with
  | .error e => .error e
  | .ok rs =>
    if rs = [] then .error .noData
    else if (rs.map Reading.level).dedup = [] then .error .noLevels
    else .ok (pipelineGrid rs)

/-- The readings parsed from the concrete scenario input
`"Level 1\n0,1000\n0,1000\nLevel 2\n0,900\n"`. -/
def sampleReadings : List Reading :=
  [⟨1, .fin 0, .fin 1000⟩, ⟨1, .fin 0, .fin 1000⟩, ⟨2, .fin 0, .fin 900⟩]

/-! ### Helper lemmas -/

lemma isFinite_iff {x : PyFloat} : x.isFinite = true ↔ ∃ q, x = .fin q := by
  cases x <;> simp [PyFloat.isFinite]

lemma pyminFold_mem (t : List PyFloat) : ∀ m : PyFloat, pyminFold m t ∈ m :: t := by
  induction t with
  | nil => intro m; simp [pyminFold]
  | cons x t ih =>
    intro m
    have hstep : pyminFold m (x :: t) = pyminFold (if PyFloat.plt x m then x else m) t := rfl
    rw [hstep]
    rcases List.mem_cons.mp (ih (if PyFloat.plt x m then x else m)) with h1 | h1
    · rw [h1]
      split
      · exact List.mem_cons_of_mem _ (List.mem_cons_self _ _)
      · exact List.mem_cons_self _ _
    · exact List.mem_cons_of_mem _ (List.mem_cons_of_mem _ h1)

lemma pyminFold_le (t : List PyFloat) :
    ∀ m : PyFloat, m.isFinite = true → (∀ x ∈ t, x.isFinite = true) →
      ∀ x ∈ m :: t, (pyminFold m t).toQ ≤ x.toQ := by
  induction t with
  | nil =>
    intro m _ _ x hx
    rcases List.mem_singleton.mp hx with rfl
    simp [pyminFold]
  | cons y t ih =>
    intro m hm hall x hx
    obtain ⟨qm, rfl⟩ := isFinite_iff.mp hm
    obtain ⟨qy, hy⟩ := isFinite_iff.mp (hall y (List.mem_cons_self _ _))
    subst hy
    have hstep : pyminFold (.fin qm) (.fin qy :: t) =
        pyminFold (if PyFloat.plt (.fin qy) (.fin qm) then .fin qy else .fin qm) t := rfl
    have htail : ∀ x ∈ t, PyFloat.isFinite x = true :=
      fun x hx => hall x (List.mem_cons_of_mem _ hx)
    rw [hstep]
    by_cases hlt : qy < qm
    · rw [if_pos (by simp [PyFloat.plt, hlt])]
      have key := ih (.fin qy) (by simp [PyFloat.isFinite]) htail
      rcases List.mem_cons.mp hx with rfl | hx1
      · exact le_trans (key _ (List.mem_cons_self _ _)) (le_of_lt hlt)
      · exact key x hx1
    · rw [if_neg (by simp [PyFloat.plt, hlt])]
      have key := ih (.fin qm) (by simp [PyFloat.isFinite]) htail
      rcases List.mem_cons.mp hx with rfl | hx1
      · exact key _ (List.mem_cons_self _ _)
      rcases List.mem_cons.mp hx1 with rfl | hx2
      · exact le_trans (key _ (List.mem_cons_self _ _)) (le_of_not_lt hlt)
      · exact key x (List.mem_cons_of_mem _ hx2)

lemma mem_levelDists {rs : List Reading} {r : Reading} (hr : r ∈ rs) :
    r.distance ∈ levelDists rs r.level := by
  exact List.mem_map_of_mem _ (List.mem_filter.mpr ⟨hr, by simp⟩)

lemma levelDists_finite {rs : List Reading} (hfin : ∀ r ∈ rs, r.distance.isFinite = true)
    (lvl : ℕ) : ∀ x ∈ levelDists rs lvl, x.isFinite = true := by
  intro x hx
  obtain ⟨r, hr, rfl⟩ := List.mem_map.mp hx
  exact hfin r (List.mem_filter.mp hr).1

/-- The baseline of a level that has at least one reading is some
element of that level's distance list. -/
lemma basePerLevel_mem {rs : List Reading} {lvl : ℕ}
    (hmem : lvl ∈ rs.map Reading.level) :
    ∃ b, basePerLevel rs lvl = some b ∧ b ∈ levelDists rs lvl := by
  obtain ⟨r, hr, hlvl⟩ := List.mem_map.mp hmem
  have hne : r.distance ∈ levelDists rs lvl := hlvl ▸ mem_levelDists hr
  cases heq : levelDists rs lvl with
  | nil => rw [heq] at hne; exact absurd hne (List.not_mem_nil _)
  | cons h t =>
    refine ⟨pyminFold h t, ?_, ?_⟩
    · simp [basePerLevel, hmem, heq]
    · exact pyminFold_mem t h

/-- Under finite data the baseline of an inhabited level is a lower
bound of the level's distances. -/
lemma basePerLevel_le {rs : List Reading} {lvl : ℕ} {b : PyFloat}
    (hfin : ∀ r ∈ rs, r.distance.isFinite = true)
    (hb : basePerLevel rs lvl = some b) (hmem : lvl ∈ rs.map Reading.level) :
    ∀ d ∈ levelDists rs lvl, b.toQ ≤ d.toQ := by
  cases heq : levelDists rs lvl with
  | nil =>
    intro d hd
    exact absurd hd (List.not_mem_nil _)
  | cons h t =>
    have hb' : b = pyminFold h t := by
      have : basePerLevel rs lvl = some (pyminFold h t) := by
        simp [basePerLevel, hmem, heq]
      rw [this] at hb
      exact (Option.some_injective _ hb).symm
    have hall := levelDists_finite hfin lvl
    rw [heq] at hall
    intro d hd
    rw [hb']
    exact pyminFold_le t h (hall h (List.mem_cons_self _ _))
      (fun x hx => hall x (List.mem_cons_of_mem _ hx)) d hd

/-! ### Claim C1 -/

/-- Claim C1: under the per-level-min baseline of the source, every
level with at least one reading gets as baseline an observed distance
of that level which (for finite data) is a lower bound of all the
distances observed at that level, i.e. their minimum; every reading's
deviation is its distance minus the baseline of its own level (the
robustness fallback never fires); and on the input
`"Level 1\n0,1000\n0,1000\nLevel 2\n0,900\n"` the baselines are 1000
for level 1 and 900 for level 2, and all three deviations are 0. -/
theorem c1_baseline_per_level_min :
    (∀ (rs : List Reading) (lvl : ℕ), lvl ∈ rs.map Reading.level →
      (∀ r ∈ rs, r.distance.isFinite = true) →
      ∃ b, basePerLevel rs lvl = some b ∧ b ∈ levelDists rs lvl ∧
        ∀ d ∈ levelDists rs lvl, b.toQ ≤ d.toQ)
  ∧ (∀ rs : List Reading, List.Forall₂
      (fun r dv => ∃ b, basePerLevel rs r.level = some b ∧
        dv = PyFloat.psub r.distance b) rs (devs rs))
  ∧ scanInput "Level 1\n0,1000\n0,1000\nLevel 2\n0,900\n".data = .ok sampleReadings
  ∧ basePerLevel sampleReadings 1 = some (.fin 1000)
  ∧ basePerLevel sampleReadings 2 = some (.fin 900)
  ∧ devs sampleReadings = [.fin 0, .fin 0, .fin 0] := by
  refine ⟨?_, ?_, ?_, ?_, ?_, ?_⟩
  · intro rs lvl hmem hfin
    obtain ⟨b, hb, hbmem⟩ := basePerLevel_mem hmem
    exact ⟨b, hb, hbmem, basePerLevel_le hfin hb hmem⟩
  · intro rs
    rw [devs, List.forall₂_map_right_iff, List.forall₂_same]
    intro r hr
    obtain ⟨b, hb, _⟩ := basePerLevel_mem (List.mem_map_of_mem Reading.level hr)
    exact ⟨b, hb, by simp [hb]⟩
  · with_unfolding_all decide
  · with_unfolding_all decide
  · with_unfolding_all decide
  · with_unfolding_all decide

/-- Witness for C1: the universally quantified part evaluated on the
concrete scenario readings at level 1. -/
theorem c1_witness :
    ∃ b, basePerLevel sampleReadings 1 = some b ∧ b ∈ levelDists sampleReadings 1 ∧
      ∀ d ∈ levelDists sampleReadings 1, b.toQ ≤ d.toQ :=
  c1_baseline_per_level_min.1 sampleReadings 1 (by with_unfolding_all decide)
    (by with_unfolding_all decide)

/-! ### Claim C10 -/

/-- Claim C10: under the per-level-min baseline mode, for every ScanSet
whose distances are finite (the spec requires non-finite values to be
rejected before this stage) every computed deviation is finite and
non-negative, because each reading's distance is compared against the
minimum distance of its own level; the negative bulge-toward-sensor
values of the sign convention can never occur in this mode. -/
theorem c10_deviations_nonneg (rs : List Reading)
    (hfin : ∀ r ∈ rs, r.distance.isFinite = true) :
    ∀ dv ∈ devs rs, dv.isFinite = true ∧ 0 ≤ dv.toQ := by
  intro dv hdv
  rw [devs] at hdv
  obtain ⟨r, hr, rfl⟩ := List.mem_map.mp hdv
  obtain ⟨b, hb, hbmem⟩ := basePerLevel_mem (List.mem_map_of_mem Reading.level hr)
  obtain ⟨qb, rfl⟩ := isFinite_iff.mp (levelDists_finite hfin _ b hbmem)
  obtain ⟨qd, hqd⟩ := isFinite_iff.mp (hfin r hr)
  have hle := basePerLevel_le hfin hb (List.mem_map_of_mem Reading.level hr)
    r.distance (mem_levelDists hr)
  simp only [hb]
  rw [hqd] at hle ⊢
  simp only [PyFloat.toQ] at hle
  refine ⟨rfl, ?_⟩
  simp only [PyFloat.psub, PyFloat.toQ]
  linarith

/-- Witness for C10: the theorem evaluated on the concrete scenario
readings at their first deviation. -/
theorem c10_witness :
    (PyFloat.fin 0).isFinite = true ∧ 0 ≤ (PyFloat.fin 0).toQ :=
  c10_deviations_nonneg sampleReadings (by with_unfolding_all decide)
    (.fin 0) (by with_unfolding_all decide)

/-! ### Claim C2 -/

/-- Claim C2: the projector computes elevation `(level − 1) ×
ELEVATION_STEP_DEGREES`, `x_m = distance · cos(elev) · sin(azimuth) /
1000` and `z_m = distance · sin(elev) / 1000` (angles in radians), and
every reading with azimuth 0 projects to `x = 0` regardless of its
distance or level. -/
theorem c2_projection_formulas :
    (∀ (lvl : ℕ) (azi dist : ℝ),
      x_m lvl azi dist =
        dist * Real.cos (deg2rad (((lvl : ℝ) - 1) * ELEVATION_STEP_DEGREES)) *
          Real.sin (deg2rad azi) / 1000)
  ∧ (∀ (lvl : ℕ) (dist : ℝ),
      z_m lvl dist =
        dist * Real.sin (deg2rad (((lvl : ℝ) - 1) * ELEVATION_STEP_DEGREES)) / 1000)
  ∧ (∀ (lvl : ℕ) (dist : ℝ), x_m lvl 0 dist = 0) := by
  refine ⟨fun _ _ _ => rfl, fun _ _ => rfl, fun lvl dist => ?_⟩
  simp [x_m, deg2rad]

/-! ### Claim C4 (corrected) -/

/-- Counterexample to C4 as stated: the source validates the second
token of a level line with Python's `isdigit`, which accepts `"0"`, so
the line `"Level 0"` is accepted and produces a reading at level
`0 < 1` instead of raising a fatal parse error. -/
theorem c4_counterexample :
    ¬ ∀ (lines : List (List Char)) (rs : List Reading),
        scanRecords none lines = .ok rs → ∀ r ∈ rs, 1 ≤ r.level := by
  intro h
  have h0 := h ["Level 0".data, "0,1000".data] [⟨0, .fin 0, .fin 1000⟩]
    (by with_unfolding_all decide) ⟨0, .fin 0, .fin 1000⟩ (List.mem_singleton_self _)
  exact absurd h0 (by decide)

/-- C4 amended: a (stripped, nonempty) line starting with `"Level"` is
accepted exactly when it has exactly two whitespace-separated tokens
whose second is a nonempty string of decimal digits — i.e. parses as an
integer ≥ 0, zero included; any other token count or a non-digit second
token is a fatal parse error carrying that line verbatim. -/
theorem c4_level_line_validation (l : List Char) (rest : List (List Char)) (lvl? : Option ℕ)
    (hstrip : pyStrip l = l) (hne : l.isEmpty = false) (hpre : startsLevel l = true) :
    ((wsSplit l).length = 2 ∧ isdigitStr ((wsSplit l).getD 1 []) = true →
      scanRecords lvl? (l :: rest) =
        scanRecords (some (digitsToNat ((wsSplit l).getD 1 []))) rest)
  ∧ (¬ ((wsSplit l).length = 2 ∧ isdigitStr ((wsSplit l).getD 1 []) = true) →
      scanRecords lvl? (l :: rest) = .error (.badLevel l)) := by
  have hunfold : scanRecords lvl? (l :: rest) =
      if (wsSplit l).length ≠ 2 ∨ ¬ isdigitStr ((wsSplit l).getD 1 []) then
        .error (.badLevel l)
      else scanRecords (some (digitsToNat ((wsSplit l).getD 1 []))) rest := by
    simp only [scanRecords, hstrip, hne, hpre]
    simp
  constructor
  · intro ⟨h2, hd⟩
    rw [hunfold, if_neg]
    push_neg
    exact ⟨h2, by simpa using hd⟩
  · intro hbad
    rw [hunfold, if_pos]
    by_contra hcon
    push_neg at hcon
    exact hbad ⟨hcon.1, hcon.2⟩

/-- Witness for the amended C4: the spec's own example line
`"Level abc"` is a fatal level-line error carrying the line. -/
theorem c4_witness :
    scanRecords none ["Level abc".data] = .error (.badLevel "Level abc".data) :=
  (c4_level_line_validation "Level abc".data [] none (by with_unfolding_all decide)
      (by with_unfolding_all decide) (by with_unfolding_all decide)).2
    (by with_unfolding_all decide)

/-! ### Claim C5 (corrected) -/

/-- Counterexample to C5 as stated: Python's `float` accepts the
non-finite spelling `"inf"`, so the data line `"0,inf"` is accepted and
produces a reading with a non-finite distance instead of raising a
fatal parse error. -/
theorem c5_counterexample :
    ¬ ∀ (lines : List (List Char)) (rs : List Reading),
        scanRecords none lines = .ok rs → ∀ r ∈ rs, r.distance.isFinite = true := by
  intro h
  have h0 := h ["Level 1".data, "0,inf".data] [⟨1, .fin 0, .inf⟩]
    (by with_unfolding_all decide) ⟨1, .fin 0, .inf⟩ (List.mem_singleton_self _)
  exact absurd h0 (by decide)

/-- C5 amended: a (stripped, nonempty) non-level data line scanned
under a current level is accepted exactly when it has exactly two
comma-separated fields that both parse under Python `float` semantics —
which include the non-finite values `inf`, `-inf` and `nan`; any other
field count, or an unparseable field, is a fatal parse error carrying
that line verbatim. -/
theorem c5_data_line_validation (l : List Char) (rest : List (List Char)) (lvl : ℕ)
    (hstrip : pyStrip l = l) (hne : l.isEmpty = false) (hpre : startsLevel l = false) :
    ((splitSep ',' l).length ≠ 2 →
      scanRecords (some lvl) (l :: rest) = .error (.badDataCount l))
  ∧ (∀ a d, parseFloat ((splitSep ',' l).getD 0 []) = some a →
      parseFloat ((splitSep ',' l).getD 1 []) = some d →
      (splitSep ',' l).length = 2 →
      scanRecords (some lvl) (l :: rest) =
        (scanRecords (some lvl) rest).map fun rs => ⟨lvl, a, d⟩ :: rs)
  ∧ ((splitSep ',' l).length = 2 →
      parseFloat ((splitSep ',' l).getD 0 []) = none ∨
        parseFloat ((splitSep ',' l).getD 1 []) = none →
      scanRecords (some lvl) (l :: rest) = .error (.badDataNum l)) := by
  have hunfold : scanRecords (some lvl) (l :: rest) =
      if (splitSep ',' l).length ≠ 2 then .error (.badDataCount l)
      else
        match parseFloat ((splitSep ',' l).getD 0 []),
            parseFloat ((splitSep ',' l).getD 1 []) with
        | some a, some d => (scanRecords (some lvl) rest).map fun rs => ⟨lvl, a, d⟩ :: rs
        | _, _ => .error (.badDataNum l) := by
    simp only [scanRecords, hstrip, hne, hpre]
    simp
  refine ⟨fun hcount => by rw [hunfold, if_pos hcount], ?_, ?_⟩
  · intro a d ha hd h2
    rw [hunfold, if_neg (by simp [h2]), ha, hd]
  · intro h2 hbad
    rw [hunfold, if_neg (by simp [h2])]
    rcases hbad with hb | hb
    · rw [hb]
    · rw [hb]
      cases parseFloat ((splitSep ',' l).getD 0 []) <;> rfl

/-- Witness for the amended C5: the spec's own example line
`"10,20,30"` (three fields) is a fatal data-line error carrying the
line. -/
theorem c5_witness :
    scanRecords (some 1) ["10,20,30".data] = .error (.badDataCount "10,20,30".data) :=
  (c5_data_line_validation "10,20,30".data [] 1 (by with_unfolding_all decide)
      (by with_unfolding_all decide) (by with_unfolding_all decide)).1
    (by with_unfolding_all decide)

/-! ### Claim C6 -/

/-- Claim C6: if scanning the whole input succeeds but yields zero
valid readings, the pipeline fails with the fatal no-data error
(source lines 68–70); and whenever the pipeline fails, the caller
receives no grid at all — a partially filled grid is never returned
alongside an error. -/
theorem c6_empty_scan_error (s : List Char) :
    (∀ rs, scanInput s = .ok rs → rs = [] → process s = .error .noData)
  ∧ (∀ e g, process s = .error e → process s ≠ .ok g) := by
  constructor
  · intro rs hok hnil
    subst hnil
    simp [process, hok]
  · intro e g he hg
    rw [he] at hg
    exact Except.noConfusion hg

/-- Witness for C6: the empty input scans to zero readings and the
pipeline raises the no-data error on it. -/
theorem c6_witness : process [] = .error .noData :=
  (c6_empty_scan_error []).1 [] (by with_unfolding_all decide) rfl

/-! ### Claim C9 -/

/-- Claim C9: the embedded pipeline parse → project → aggregate →
smooth is deterministic — identical input text (with the fixed
configuration hardcoded in the source) always produces identical
output: `process` is a pure function of the input string. -/
theorem c9_deterministic (s₁ s₂ : List Char) (h : s₁ = s₂) :
    process s₁ = process s₂ := by
  rw [h]

/-- Witness for C9: two runs on the same concrete input agree. -/
theorem c9_witness :
    process "Level 1\n0,1000\n".data = process "Level 1\n0,1000\n".data :=
  c9_deterministic _ _ rfl

/-! ### Binning helper lemmas -/

lemma bin2d_none_iff (p : ℝ × ℝ) : bin2d p = none ↔ ¬ inExtent p := by
  unfold bin2d xbin zbin inExtent
  by_cases hx : -2.2 ≤ p.1 ∧ p.1 ≤ 2.2 <;> by_cases hz : 0 ≤ p.2 ∧ p.2 ≤ 2.2 <;>
    simp [hx, hz]

lemma sum_count_grid (l : List (Option (Fin 200 × Fin 200))) :
    (∑ c : Fin 200 × Fin 200, l.count (some c)) + l.count none = l.length := by
  induction l with
  | nil =>
    have h1 : ∑ c : Fin 200 × Fin 200,
        ([] : List (Option (Fin 200 × Fin 200))).count (some c) = 0 :=
      Finset.sum_eq_zero fun c _ => List.count_nil (some c)
    have h2 : ([] : List (Option (Fin 200 × Fin 200))).count none = 0 :=
      List.count_nil none
    have h3 : ([] : List (Option (Fin 200 × Fin 200))).length = 0 := rfl
    omega
  | cons o t ih =>
    have h3 : (o :: t).length = t.length + 1 := rfl
    cases o with
    | none =>
      have h1 : ∑ b : Fin 200 × Fin 200, (none :: t).count (some b) =
          ∑ b : Fin 200 × Fin 200, t.count (some b) :=
        Finset.sum_congr rfl fun b _ => by simp [List.count_cons]
      have h2 : (none :: t).count (none : Option (Fin 200 × Fin 200)) =
          t.count none + 1 := by
        simp [List.count_cons]
      omega
    | some b0 =>
      have h2 : (some b0 :: t).count (none : Option (Fin 200 × Fin 200)) =
          t.count none := by
        simp [List.count_cons]
      have key : ∀ b : Fin 200 × Fin 200, (some b0 :: t).count (some b) =
          t.count (some b) + if b = b0 then 1 else 0 := by
        intro b
        by_cases hb : b = b0
        · subst hb; simp [List.count_cons]
        · simp [List.count_cons, hb]
      have h1 : ∑ b : Fin 200 × Fin 200, (some b0 :: t).count (some b) =
          (∑ b : Fin 200 × Fin 200, t.count (some b)) + 1 := by
        simp only [key]
        rw [Finset.sum_add_distrib, Finset.sum_ite_eq' Finset.univ b0 fun _ => 1]
        simp
      omega

/-! ### Claim C3 -/

/-- Claim C3: each projected point lands in at most one grid cell
(exactly one when it lies in the configured extent), and the per-cell
counts of the aggregator sum to the number of valid readings parsed
minus the points whose projected coordinates fall outside the extent
(those are exactly the dropped ones). -/
theorem c3_binning_roundtrip (rs : List Reading) :
    ((∑ c : Fin 200 × Fin 200, countCell (rs.map projPoint) c)
        + ((rs.map projPoint).map bin2d).count none = rs.length)
  ∧ (∀ p : ℝ × ℝ, bin2d p = none ↔ ¬ inExtent p)
  ∧ (∀ p : ℝ × ℝ, inExtent p → ∃! c, bin2d p = some c) := by
  refine ⟨?_, bin2d_none_iff, ?_⟩
  · have h := sum_count_grid ((rs.map projPoint).map bin2d)
    rw [List.length_map, List.length_map] at h
    exact h
  · intro p hp
    rcases ho : bin2d p with _ | c
    · exact absurd ((bin2d_none_iff p).mp ho) (not_not_intro hp)
    · exact ⟨c, rfl, fun y hy => (Option.some_injective _ hy).symm⟩

/-- Witness for C3: the in-extent point `(0, 0)` is binned into exactly
one cell. -/
theorem c3_witness : ∃! c, bin2d ((0 : ℝ), (0 : ℝ)) = some c :=
  (c3_binning_roundtrip []).2.2 ((0 : ℝ), (0 : ℝ)) (by norm_num [inExtent])

/-! ### Claim C7 -/

/-- Claim C7: when every weighted point of a scan projects outside the
configured extent, the aggregator still succeeds: every cell of the
grid is marked empty, the zero-filled cell values are all exactly zero,
and Gaussian smoothing of the zero-filled grid is identically zero. -/
theorem c7_all_points_outside (pds : List ((ℝ × ℝ) × ℝ))
    (h : ∀ q ∈ pds, ¬ inExtent q.1) :
    (∀ c, emptyCell pds c)
  ∧ (∀ c, cellValue pds c = 0)
  ∧ (∀ i j, gaussSmooth (fun i j => cellValue pds (i, j)) i j = 0) := by
  have hcount : ∀ c, cellCount pds c = 0 := by
    intro c
    apply List.count_eq_zero.mpr
    intro hmem
    rw [List.map_map] at hmem
    obtain ⟨q, hq, heq⟩ := List.mem_map.mp hmem
    have hnone : bin2d q.1 = none := (bin2d_none_iff _).mpr (h q hq)
    rw [Function.comp_apply, hnone] at heq
    exact Option.noConfusion heq
  have hval : ∀ c, cellValue pds c = 0 := fun c => by simp [cellValue, hcount c]
  refine ⟨hcount, hval, ?_⟩
  intro i j
  have hg : (fun i j => cellValue pds (i, j)) = fun _ _ => (0 : ℝ) := by
    funext i j
    exact hval (i, j)
  rw [hg]
  simp [gaussSmooth, smoothCols, smoothRows]

/-- Witness for C7: a single point at `x = 5` m, outside the 4.4 m wide
extent, yields the all-empty all-zero smoothed grid. -/
theorem c7_witness :
    (∀ c, emptyCell [(((5 : ℝ), (0 : ℝ)), (0 : ℝ))] c)
  ∧ (∀ c, cellValue [(((5 : ℝ), (0 : ℝ)), (0 : ℝ))] c = 0)
  ∧ (∀ i j, gaussSmooth (fun i j => cellValue [(((5 : ℝ), (0 : ℝ)), (0 : ℝ))] (i, j)) i j
      = 0) :=
  c7_all_points_outside _ (by
    intro q hq
    rcases List.mem_singleton.mp hq with rfl
    norm_num [inExtent])

/-! ### Claim C8 (corrected) -/

/-- Counterexample to C8 as stated: on the input
`"Level 1\nLevel 2\n0,1000"` level 1 is declared and has zero readings,
yet the baseline map has no entry at all for level 1 (rather than the
claimed zero baseline) and no degenerate-level warning is recorded:
the source computes its level set from the parsed readings, so a
reading-less declared level is invisible to the baseline stage. -/
theorem c8_counterexample :
    scanInput "Level 1\nLevel 2\n0,1000".data = .ok [⟨2, .fin 0, .fin 1000⟩]
  ∧ basePerLevel [⟨2, .fin 0, .fin 1000⟩] 1 = none
  ∧ basePerLevel [⟨2, .fin 0, .fin 1000⟩] 1 ≠ some (.fin 0)
  ∧ degWarnings [⟨2, .fin 0, .fin 1000⟩] = [] := by
  refine ⟨?_, ?_, ?_, ?_⟩ <;> with_unfolding_all decide

/-- C8 amended: a declared level with zero readings is indeed non-fatal
(the declaring input above processes successfully), but contrary to the
claim it receives no baseline entry at all — the baseline mapping is
defined for exactly the levels that have readings — and no
degenerate-level warning is ever recorded on any reading list (the
warning branch of the source is unreachable). -/
theorem c8_degenerate_level :
    (∀ rs : List Reading, degWarnings rs = [])
  ∧ (∀ (rs : List Reading) (lvl : ℕ),
      basePerLevel rs lvl = none ↔ lvl ∉ rs.map Reading.level)
  ∧ (∃ g, process "Level 1\nLevel 2\n0,1000".data = .ok g) := by
  refine ⟨?_, ?_, ?_⟩
  · intro rs
    rw [degWarnings]
    apply List.filter_eq_nil_iff.mpr
    intro lvl hlvl
    rw [List.mem_dedup] at hlvl
    obtain ⟨r, hr, rfl⟩ := List.mem_map.mp hlvl
    have hmem : r.distance ∈ levelDists rs r.level := mem_levelDists hr
    intro hemp
    rw [List.isEmpty_iff] at hemp
    rw [hemp] at hmem
    exact List.not_mem_nil _ hmem
  · intro rs lvl
    constructor
    · intro hnone hmem
      obtain ⟨b, hb, _⟩ := basePerLevel_mem hmem
      rw [hnone] at hb
      exact Option.noConfusion hb
    · intro hnot
      simp [basePerLevel, hnot]
  · refine ⟨pipelineGrid [⟨2, .fin 0, .fin 1000⟩], ?_⟩
    have hscan : scanInput "Level 1\nLevel 2\n0,1000".data =
        .ok [⟨2, .fin 0, .fin 1000⟩] := by
      with_unfolding_all decide
    simp [process, hscan]

end Plastermate
